import Mathlib

/-!
Shallow embedding of the journal module of the asystemd crate
(src/journal.rs) together with proofs about its cursor, seek, open,
release, decoding and blocking-iterator behaviour.

Conventions of the embedding:
* Text (Rust String) is a list of Unicode scalar values (List Nat).
* Byte strings crossing the FFI boundary are lists of bytes (List Nat).
* C return codes (c_int) are Int; the sd_try! macro turns a negative
  return code into a typed error carrying the status code.
* The native journal store (sd_journal) is external per the design
  boundary; its primitive results are supplied as explicit inputs.
* A Rust panic (unwrap on Err/None) is modelled as a distinguished
  outcome, never conflated with an ordinary error value.
-/

namespace Asystemd

/-- A Unicode scalar value: any code point outside the surrogate range. -/
def ValidScalar (c : Nat) : Prop := c < 0xD800 ∨ (0xE000 ≤ c ∧ c < 0x110000)

instance (c : Nat) : Decidable (ValidScalar c) :=
  inferInstanceAs (Decidable (_ ∨ _))

/-- UTF-8 encoding of one scalar value, as Rust String stores its text. -/
def utf8EncodeChar (c : Nat) : List Nat :=
  if c < 0x80 then [c]
  else if c < 0x800 then [0xC0 + c / 64, 0x80 + c % 64]
  else if c < 0x10000 then [0xE0 + c / 4096, 0x80 + c / 64 % 64, 0x80 + c % 64]
  else [0xF0 + c / 262144, 0x80 + c / 4096 % 64, 0x80 + c / 64 % 64, 0x80 + c % 64]

/-- UTF-8 encoding of a text: the byte content of a Rust String. -/
def utf8Encode (cs : List Nat) : List Nat := (cs.map utf8EncodeChar).flatten

/-- Admissible second byte of a three-byte UTF-8 sequence with lead byte b0
(rejects overlong forms and surrogates, as Rust UTF-8 validation does). -/
def valid3Second (b0 b1 : Nat) : Prop :=
  (b0 = 0xE0 ∧ 0xA0 ≤ b1 ∧ b1 ≤ 0xBF) ∨
  (0xE1 ≤ b0 ∧ b0 ≤ 0xEC ∧ 0x80 ≤ b1 ∧ b1 ≤ 0xBF) ∨
  (b0 = 0xED ∧ 0x80 ≤ b1 ∧ b1 ≤ 0x9F) ∨
  (0xEE ≤ b0 ∧ b0 ≤ 0xEF ∧ 0x80 ≤ b1 ∧ b1 ≤ 0xBF)

instance (b0 b1 : Nat) : Decidable (valid3Second b0 b1) :=
  inferInstanceAs (Decidable (_ ∨ _ ∨ _ ∨ _))

/-- Admissible second byte of a four-byte UTF-8 sequence with lead byte b0
(rejects overlong forms and code points above U+10FFFF). -/
def valid4Second (b0 b1 : Nat) : Prop :=
  (b0 = 0xF0 ∧ 0x90 ≤ b1 ∧ b1 ≤ 0xBF) ∨
  (0xF1 ≤ b0 ∧ b0 ≤ 0xF3 ∧ 0x80 ≤ b1 ∧ b1 ≤ 0xBF) ∨
  (b0 = 0xF4 ∧ 0x80 ≤ b1 ∧ b1 ≤ 0x8F)

instance (b0 b1 : Nat) : Decidable (valid4Second b0 b1) :=
  inferInstanceAs (Decidable (_ ∨ _ ∨ _))

/-- Head of the byte list is a UTF-8 continuation byte. -/
def headCont : List Nat → Prop
  | [] => False
  | b :: _ => 0x80 ≤ b ∧ b ≤ 0xBF

instance : (l : List Nat) → Decidable (headCont l)
  | [] => inferInstanceAs (Decidable False)
  | _ :: _ => inferInstanceAs (Decidable (_ ∧ _))

/-- Head of the byte list is an admissible second byte after 3-byte lead b0. -/
def head3 (b0 : Nat) : List Nat → Prop
  | [] => False
  | b1 :: _ => valid3Second b0 b1

instance (b0 : Nat) : (l : List Nat) → Decidable (head3 b0 l)
  | [] => inferInstanceAs (Decidable False)
  | _ :: _ => inferInstanceAs (Decidable (valid3Second _ _))

/-- Head of the byte list is an admissible second byte after 4-byte lead b0. -/
def head4 (b0 : Nat) : List Nat → Prop
  | [] => False
  | b1 :: _ => valid4Second b0 b1

instance (b0 : Nat) : (l : List Nat) → Decidable (head4 b0 l)
  | [] => inferInstanceAs (Decidable False)
  | _ :: _ => inferInstanceAs (Decidable (valid4Second _ _))

/-- Lossy UTF-8 decoding of a byte string into text, as performed by
CStr::to_string_lossy inside Journal::cursor: well-formed sequences decode
to their scalar value, and each maximal invalid subpart is replaced by
U+FFFD, resuming at the first byte that could not extend the sequence.
The continuation tests are phrased on the head of the remaining list so
that every recursive call is on a pattern variable; the empty-list match
arms below the tests are unreachable. -/
def utf8LossyDecode : List Nat → List Nat
  | [] => []
  | b0 :: r =>
    if b0 < 0x80 then
      b0 :: utf8LossyDecode r
    else if 0xC2 ≤ b0 ∧ b0 ≤ 0xDF then
      if headCont r then
        match r with
        | b1 :: r1 => ((b0 - 0xC0) * 64 + (b1 - 0x80)) :: utf8LossyDecode r1
        | [] => []
      else
        0xFFFD :: utf8LossyDecode r
    else if 0xE0 ≤ b0 ∧ b0 ≤ 0xEF then
      if head3 b0 r then
        match r with
        | b1 :: r1 =>
          if headCont r1 then
            match r1 with
            | b2 :: r2 =>
              ((b0 - 0xE0) * 4096 + (b1 - 0x80) * 64 + (b2 - 0x80)) ::
                utf8LossyDecode r2
            | [] => []
          else
            0xFFFD :: utf8LossyDecode r1
        | [] => []
      else
        0xFFFD :: utf8LossyDecode r
    else if 0xF0 ≤ b0 ∧ b0 ≤ 0xF4 then
      if head4 b0 r then
        match r with
        | b1 :: r1 =>
          if headCont r1 then
            match r1 with
            | b2 :: r2 =>
              if headCont r2 then
                match r2 with
                | b3 :: r3 =>
                  ((b0 - 0xF0) * 262144 + (b1 - 0x80) * 4096 +
                    (b2 - 0x80) * 64 + (b3 - 0x80)) :: utf8LossyDecode r3
                | [] => []
              else
                0xFFFD :: utf8LossyDecode r2
            | [] => []
          else
            0xFFFD :: utf8LossyDecode r1
        | [] => []
      else
        0xFFFD :: utf8LossyDecode r
    else
      0xFFFD :: utf8LossyDecode r

/-- Scalar values of a string literal, for readable concrete inputs. -/
def chars (s : String) : List Nat := s.data.map Char.toNat

/-- Modelled from the spec: the sd_try! macro of the crate root (not under
src/) surfaces a negative native return code as a typed error carrying the
underlying status code, and passes any non-negative code through. -/
def sdTry (r : Int) : Except Int Int :=
  if r < 0 then .error (-r) else .ok r

/-- Outcome of a cursor-restore attempt, from src/journal.rs. -/
inductive SeekRet
  | SeekSuccess
  | ClosestSeek
deriving DecidableEq

/-- Native-store state consulted by Journal::seek. -/
structure SeekStore where
  /-- return code the native sd_journal_seek_cursor call produces -/
  seekCursorRet : Int
  /-- whether the exact record named by the cursor still exists in the
  store: what sd_journal_test_cursor would report — consulted only by the
  code path of Journal::seek that the source leaves commented out -/
  exactMatch : Bool

/-- Journal::cursor with the native results supplied explicitly: a
negative sd_journal_get_cursor code is surfaced via sd_try!; on code 0 the
C buffer is copied through CStr::to_string_lossy (then freed); any other
non-negative code leaves the initial empty string in place. -/
def cursor (getCursorRet : Int) (bytes : List Nat) : Except Int (List Nat) :=
  match sdTry getCursorRet with
  | .error e => .error e
  | .ok r => if r = 0 then .ok (utf8LossyDecode bytes) else .ok []

/-- Byte content Journal::seek hands to sd_journal_seek_cursor: the
CString built from the cursor text (terminating NUL not counted). -/
def seekBytesSent (cursorText : List Nat) : List Nat := utf8Encode cursorText

/-- Journal::seek. CString::new fails on an interior NUL and the source
unwraps that result, so such a cursor panics (modelled as none). A failure
of sd_journal_seek_cursor is surfaced via sd_try!. On success the source
returns SeekSuccess unconditionally: the sd_journal_test_cursor check that
would report ClosestSeek is commented out under a TODO. -/
def seek (st : SeekStore) (cursorText : List Nat) : Option (Except Int SeekRet) :=
  if 0 ∈ seekBytesSent cursorText then none
  else
    match sdTry st.seekCursorRet with
    | .error e => some (.error e)
    | .ok _ => some (.ok SeekRet.SeekSuccess)

/-- A decoded journal record. The source uses BTreeMap of String to
String; it is modelled as an association list with unique keys — the key
ordering BTreeMap additionally maintains is irrelevant to every stated
property (entry count and per-key lookup). -/
abbrev JournalRecord := List (List Nat × List Nat)

/-- BTreeMap::insert: replaces the value of an existing key, otherwise
adds the binding. -/
def insertRec : JournalRecord → List Nat → List Nat → JournalRecord
  | [], k, v => [(k, v)]
  | (k0, v0) :: m, k, v =>
    if k0 = k then (k, v) :: m else (k0, v0) :: insertRec m k v

/-- BTreeMap lookup on the association-list model. -/
def lookupRec : JournalRecord → List Nat → Option (List Nat)
  | [], _ => none
  | (k0, v0) :: m, k => if k0 = k then some v0 else lookupRec m k

/-- Keys of a record, in insertion order of the model. -/
def keysRec (m : JournalRecord) : List (List Nat) := m.map Prod.fst

/-- field.splitn(2, '=') followed by the source's two unwrap calls:
some (name, value) when the buffer contains a '=' (byte 61) — the name is
the prefix before the first '=', the value the whole suffix after it —
and none (a panic of the unwrap on the value) otherwise. -/
def splitEq : List Nat → Option (List Nat × List Nat)
  | [] => none
  | b :: bs =>
    if b = 61 then some ([], bs)
    else
      match splitEq bs with
      | none => none
      | some (k, v) => some (b :: k, v)

/-- Name component of a field buffer (prefix before the first '='). -/
def fieldKey (f : List Nat) : List Nat := ((splitEq f).getD ([], [])).1

/-- Value component of a field buffer (suffix after the first '='). -/
def fieldVal (f : List Nat) : List Nat := ((splitEq f).getD ([], [])).2

/-- The enumeration loop of Journal::next_record: each buffer is split on
the first '=' and inserted into the BTreeMap accumulator. -/
def decodeFieldsAux : JournalRecord → List (List Nat) → Option JournalRecord
  | m, [] => some m
  | m, f :: fs =>
    match splitEq f with
    | none => none
    | some (k, v) => decodeFieldsAux (insertRec m k v) fs

/-- Decoding of all enumerated field buffers, starting from the empty
BTreeMap created by next_record. -/
def decodeFields (fields : List (List Nat)) : Option JournalRecord :=
  decodeFieldsAux [] fields

/-- The record next_record builds from the given buffers (default empty). -/
def recMap (fields : List (List Nat)) : JournalRecord :=
  (decodeFields fields).getD []

/-- Result of Journal::next_record. -/
inductive RecRes
  | err (e : Int)
  | endOfJournal
  | record (r : JournalRecord)
  | panicked
deriving DecidableEq

/-- Journal::next_record with the native results supplied explicitly:
advanceRet is the sd_journal_next return code; fields are the buffers the
successive sd_journal_enumerate_data calls produced; enumEndRet is the
code that ended the enumeration loop (0 done, negative an error that
sd_try! surfaces). A buffer lacking '=' panics while it is processed, so
.panicked takes precedence over a loop-ending error. -/
def next_record (advanceRet : Int) (fields : List (List Nat))
    (enumEndRet : Int) : RecRes :=
  match sdTry advanceRet with
  | .error e => .err e
  | .ok n =>
    if n = 0 then .endOfJournal
    else
      match decodeFields fields with
      | none => .panicked
      | some m =>
        match sdTry enumEndRet with
        | .error e => .err e
        | .ok _ => .record m

/-- The set of journal files to read, from src/journal.rs. -/
inductive JournalFiles
  | System
  | CurrentUser
  | All

/-- Modelled from the spec: LocalOnly scope-flag bit of the ffi module
(not under src/); the four bits are distinct. -/
def SD_JOURNAL_LOCAL_ONLY : Nat := 1

/-- Modelled from the spec: RuntimeOnly scope-flag bit of the ffi module
(not under src/). -/
def SD_JOURNAL_RUNTIME_ONLY : Nat := 2

/-- Modelled from the spec: System-store scope-flag bit of the ffi module
(not under src/). -/
def SD_JOURNAL_SYSTEM : Nat := 4

/-- Modelled from the spec: CurrentUser-store scope-flag bit of the ffi
module (not under src/); All stores leaves both store bits unset. -/
def SD_JOURNAL_CURRENT_USER : Nat := 8

/-- The Journal handle of src/journal.rs: the native sd_journal pointer
(false models null) and the u64 wait timeout in microseconds. -/
structure Journal where
  j : Bool
  wait_time : Nat
deriving DecidableEq

/-- Observable state of the native store connection driven by open and
release. openRet is the sd_journal_open return code as a function of the
flags passed; closeCount counts sd_journal_close invocations. -/
structure StoreState where
  openRet : Nat → Int
  seekHeadRet : Int
  connected : Bool
  atHead : Bool
  closeCount : Nat

/-- Journal::open (source name: open, a Lean keyword): accumulates the
scope flags, builds the Journal with a null handle and
wait_time = 1 <<< 63, then sd_try!-checks sd_journal_open and
sd_journal_seek_head. An early error return after the native open
succeeded drops the half-initialised Journal, whose Drop impl closes the
freshly opened connection, so no partially-usable handle escapes. -/
def openJournal (files : JournalFiles) (runtime_only local_only : Bool)
    (st : StoreState) : Except Int Journal × StoreState :=
  let flags : Nat :=
    ((0 ||| (if runtime_only then SD_JOURNAL_RUNTIME_ONLY else 0)) |||
      (if local_only then SD_JOURNAL_LOCAL_ONLY else 0)) |||
    (match files with
     | .System => SD_JOURNAL_SYSTEM
     | .CurrentUser => SD_JOURNAL_CURRENT_USER
     | .All => 0)
  let journal : Journal := { j := false, wait_time := 1 <<< 63 }
  match sdTry (st.openRet flags) with
  | .error e => (.error e, st)
  | .ok _ =>
    let st1 : StoreState := { st with connected := true }
    let journal1 : Journal := { journal with j := true }
    match sdTry st1.seekHeadRet with
    | .error e =>
      (.error e, { st1 with connected := false, closeCount := st1.closeCount + 1 })
    | .ok _ => (.ok journal1, { st1 with atHead := true })

/-- Journal::set_iterator_timeout: stores timeout * 1000000 in the u64
wait_time field; the multiplication wraps modulo 2 to the 64. -/
def set_iterator_timeout (self : Journal) (timeout : Nat) : Journal :=
  { self with wait_time := timeout * 1000000 % 2 ^ 64 }

/-- Drop for Journal: closes the native connection when the handle is
non-null and does nothing otherwise; the handle field itself is left
untouched by the close. -/
def dropJournal (self : Journal) (st : StoreState) : Journal × StoreState :=
  if self.j then
    (self, { st with connected := false, closeCount := st.closeCount + 1 })
  else
    (self, st)

/-- The dummy entry the iterator substitutes when next_record fails. -/
def dummyRecord : JournalRecord := insertRec [] (chars "Dummy") (chars "Dummy")

/-- Native results consumed by one body of Iterator::next for the Journal
reference: a next_record call (advanceRet, fields, enumEndRet), the
cursor call of the yield path (getCursorRet, cursorBytes), and the
sd_journal_wait call of the end-of-data path (waitRet). -/
structure AttemptIn where
  advanceRet : Int
  fields : List (List Nat)
  enumEndRet : Int
  getCursorRet : Int
  cursorBytes : List Nat
  waitRet : Int
deriving DecidableEq

/-- Outcome of one body of Iterator::next: yield an item, return None,
recurse into self.next(), or panic. -/
inductive StepOut
  | yield (r : JournalRecord) (c : List Nat)
  | stop
  | retry
  | panicked
deriving DecidableEq

/-- The Some(record) arm of the iterator body: the cursor is captured
with self.cursor().unwrap(), so a cursor error panics. -/
def yieldWithCursor (r : JournalRecord) (a : AttemptIn) : StepOut :=
  match cursor a.getCursorRet a.cursorBytes with
  | .ok c => .yield r c
  | .error _ => .panicked

/-- One body of Iterator::next for the Journal reference: an Err from
next_record is replaced by the dummy record; a yielded record goes through
the cursor capture; at end of data, a sd_journal_wait result of at most 0
returns None, and both 1 (data) and 2 (invalidated, after a log line)
recurse into self.next(). -/
def journalNextStep (a : AttemptIn) : StepOut :=
  match next_record a.advanceRet a.fields a.enumEndRet with
  | .panicked => .panicked
  | .err _ => yieldWithCursor dummyRecord a
  | .record r => yieldWithCursor r a
  | .endOfJournal =>
    if a.waitRet ≤ 0 then .stop
    else .retry

/-- Result of a full Iterator::next call on the Journal reference. -/
inductive NextOut
  | item (r : JournalRecord) (c : List Nat)
  | exhausted
  | panicked
  | diverged
deriving DecidableEq

/-- The full recursion of Iterator::next, driven by the list of native
results consumed by the successive attempts: each self.next() retry
consumes the next entry. .diverged marks recursion past the supplied
prefix of native results (the source recursion is bounded only by the
store eventually settling). -/
def journalNext : List AttemptIn → NextOut
  | [] => .diverged
  | a :: rest =>
    match journalNextStep a with
    | .yield r c => .item r c
    | .stop => .exhausted
    | .panicked => .panicked
    | .retry => journalNext rest

/-- A native store whose open and seek-head primitives succeed, with no
connection established yet. -/
def storeOk : StoreState :=
  { openRet := fun _ => 0, seekHeadRet := 0, connected := false,
    atHead := false, closeCount := 0 }

/-- C1: the code diverges from the claim — even when the exact record the
cursor names is unavailable in the store (exactMatch false) and the native
seek succeeds, Journal::seek reports SeekSuccess, never ClosestSeek: the
sd_journal_test_cursor distinction is commented out under a TODO. -/
theorem seek_reports_success_without_exact_match :
    seek { seekCursorRet := 0, exactMatch := false } (chars "s=ab;i=1b48") =
      some (Except.ok SeekRet.SeekSuccess) ∧
    SeekRet.SeekSuccess ≠ SeekRet.ClosestSeek :=
  ⟨rfl, by decide⟩

/-- C4: in the Waiting state (next_record reported end of data), a wait
result of 2 (Invalidated) makes the iterator retry immediately without
yielding an item: the outcome of the call is exactly the outcome of the
retried call, so the invalidation is never surfaced as an error or as
termination of the sequence. -/
theorem invalidated_wait_retries (a : AttemptIn) (rest : List AttemptIn)
    (hend : a.advanceRet = 0) (hw : a.waitRet = 2) :
    journalNext (a :: rest) = journalNext rest := by
  simp [journalNext, journalNextStep, next_record, sdTry, hend, hw]

/-- C4 witness: a concrete invalidated wait defers to the rest of the
supplied native results without yielding. -/
theorem invalidated_wait_retries_witness :
    journalNext [{ advanceRet := 0, fields := [], enumEndRet := 0,
                   getCursorRet := 0, cursorBytes := [], waitRet := 2 }] =
      journalNext [] :=
  invalidated_wait_retries _ [] rfl rfl

/-- C5: in the Waiting state, a wait result of zero or below — every such
result maps to Timeout — ends the sequence for this call: the iterator
returns None and yields no item. -/
theorem timeout_wait_exhausts (a : AttemptIn) (rest : List AttemptIn)
    (hend : a.advanceRet = 0) (hw : a.waitRet ≤ 0) :
    journalNext (a :: rest) = NextOut.exhausted := by
  simp [journalNext, journalNextStep, next_record, sdTry, hend, hw]

/-- C5 witness: a concrete negative wait result ends the call. -/
theorem timeout_wait_exhausts_witness :
    journalNext [{ advanceRet := 0, fields := [], enumEndRet := 0,
                   getCursorRet := 0, cursorBytes := [], waitRet := -7 }] =
      NextOut.exhausted :=
  timeout_wait_exhausts _ [] rfl (by norm_num)

/-- C3 counterexample: a read error from next_record combined with a
failing cursor capture makes the whole next() call panic (cursor unwrap on
Err) instead of yielding the placeholder record, so the claimed
unconditional continuation on read faults fails. -/
theorem read_error_with_cursor_error_panics :
    journalNext [{ advanceRet := -5, fields := [], enumEndRet := 0,
                   getCursorRet := -1, cursorBytes := [], waitRet := 0 }] =
      NextOut.panicked := rfl

/-- C3 (amended): when reading or decoding the current record fails with
an error and the subsequent cursor capture succeeds, the iterator yields
the best-effort placeholder record (Dummy bound to Dummy) with that cursor
and the sequence continues; continuation holds only in that case — a
failing cursor capture panics the call instead. -/
theorem read_error_yields_dummy (a : AttemptIn) (rest : List AttemptIn)
    (e : Int) (c : List Nat)
    (herr : next_record a.advanceRet a.fields a.enumEndRet = RecRes.err e)
    (hcur : cursor a.getCursorRet a.cursorBytes = Except.ok c) :
    journalNext (a :: rest) = NextOut.item dummyRecord c := by
  simp [journalNext, journalNextStep, herr, yieldWithCursor, hcur]

/-- C3 witness: a concrete failing advance yields the dummy record with
the captured cursor. -/
theorem read_error_yields_dummy_witness :
    journalNext [{ advanceRet := -5, fields := [], enumEndRet := 0,
                   getCursorRet := 0, cursorBytes := chars "s=1", waitRet := 0 }] =
      NextOut.item dummyRecord (chars "s=1") :=
  read_error_yields_dummy _ [] 5 (chars "s=1") rfl rfl

/-- C7: for every file selector and flag combination, open either succeeds
— and then the handle holds a non-null connection, the default wait
timeout, and the store is positioned at the logical head — or fails with
an error, in which case no partially-usable handle escapes and no
half-open connection remains. -/
theorem openJournal_total (files : JournalFiles) (runtime_only local_only : Bool)
    (st : StoreState) (hfresh : st.connected = false) :
    (∀ j st2, openJournal files runtime_only local_only st = (.ok j, st2) →
      j.j = true ∧ j.wait_time = 2 ^ 63 ∧ st2.atHead = true ∧ st2.connected = true) ∧
    (∀ e st2, openJournal files runtime_only local_only st = (.error e, st2) →
      st2.connected = false) := by
  constructor
  · intro j st2 h
    simp only [openJournal] at h
    split at h
    · simp at h
    · split at h
      · simp at h
      · simp only [Prod.mk.injEq, Except.ok.injEq] at h
        obtain ⟨hj, hst⟩ := h
        subst hj
        subst hst
        refine ⟨rfl, by simp [Nat.shiftLeft_eq], rfl, rfl⟩
  · intro e st2 h
    simp only [openJournal] at h
    split at h
    · simp only [Prod.mk.injEq] at h
      exact h.2 ▸ hfresh
    · split at h
      · simp only [Prod.mk.injEq] at h
        rw [← h.2]
      · simp at h

/-- C7 witness: a concrete successful open leaves the handle non-null with
the default timeout and the store at head. -/
theorem openJournal_total_witness :
    Journal.j { j := true, wait_time := 1 <<< 63 } = true ∧
    Journal.wait_time { j := true, wait_time := 1 <<< 63 } = 2 ^ 63 ∧
    StoreState.atHead { storeOk with connected := true, atHead := true } = true ∧
    StoreState.connected { storeOk with connected := true, atHead := true } = true :=
  (openJournal_total JournalFiles.All false true storeOk rfl).1
    { j := true, wait_time := 1 <<< 63 }
    { storeOk with connected := true, atHead := true } rfl

/-- C8 counterexample: releasing the same non-null handle twice closes the
native connection twice — the second release is observable (the close
count advances again) because the first one leaves the handle non-null. -/
theorem dropJournal_double_close :
    (dropJournal { j := true, wait_time := 0 }
      { storeOk with connected := true }).2.closeCount = 1 ∧
    (dropJournal
      (dropJournal { j := true, wait_time := 0 } { storeOk with connected := true }).1
      (dropJournal { j := true, wait_time := 0 } { storeOk with connected := true }).2
      ).2.closeCount = 2 :=
  ⟨rfl, rfl⟩

/-- C8 (amended): the release is guarded by a null check, so releasing a
handle whose pointer is null — as after a failed open — is a no-op and
safe; releasing a non-null handle closes the connection once but leaves
the pointer non-null, so closing exactly once rests on the language
running Drop at most once, not on the guard. -/
theorem dropJournal_guard (self : Journal) (st : StoreState) :
    (self.j = false → dropJournal self st = (self, st)) ∧
    (self.j = true →
      dropJournal self st =
        (self, { st with connected := false, closeCount := st.closeCount + 1 })) := by
  constructor
  · intro h; simp [dropJournal, h]
  · intro h; simp [dropJournal, h]

/-- C8 witness: the null-handle release is a no-op and the non-null
release closes once. -/
theorem dropJournal_guard_witness :
    dropJournal { j := false, wait_time := 0 } storeOk =
      ({ j := false, wait_time := 0 }, storeOk) ∧
    dropJournal { j := true, wait_time := 0 } storeOk =
      ({ j := true, wait_time := 0 },
        { storeOk with connected := false, closeCount := 1 }) :=
  ⟨(dropJournal_guard _ _).1 rfl, (dropJournal_guard _ _).2 rfl⟩

/-- C10: set_iterator_timeout stores its argument (whole seconds) times
1000000 — microseconds, the u64 product wrapping modulo 2 to the 64 — as
the wait duration, and open initialises the wait duration to 2 to the 63
microseconds, an effectively unbounded wait. -/
theorem set_iterator_timeout_conversion (self : Journal) (t : Nat) :
    (set_iterator_timeout self t).wait_time = t * 1000000 % 2 ^ 64 ∧
    (∀ files r l st j st2, openJournal files r l st = (.ok j, st2) →
      j.wait_time = 2 ^ 63) := by
  refine ⟨rfl, ?_⟩
  intro files r l st j st2 h
  simp only [openJournal] at h
  split at h
  · simp at h
  · split at h
    · simp at h
    · simp only [Prod.mk.injEq, Except.ok.injEq] at h
      rw [← h.1]
      simp [Nat.shiftLeft_eq]

/-- A buffer containing the byte 61 splits successfully into some pair. -/
theorem splitEq_isSome (f : List Nat) (h : 61 ∈ f) : ∃ p, splitEq f = some p := by
  induction f with
  | nil => cases h
  | cons b bs ih =>
    by_cases hb : b = 61
    · exact ⟨([], bs), by simp [splitEq, hb]⟩
    · have hmem : 61 ∈ bs := by
        rcases List.mem_cons.mp h with h1 | h1
        · exact absurd h1.symm hb
        · exact h1
      obtain ⟨⟨k, v⟩, hkv⟩ := ih hmem
      exact ⟨(b :: k, v), by simp [splitEq, hb, hkv]⟩

/-- On a buffer containing 61, splitEq returns the fieldKey and fieldVal
components. -/
theorem splitEq_eq_field (f : List Nat) (h : 61 ∈ f) :
    splitEq f = some (fieldKey f, fieldVal f) := by
  obtain ⟨⟨k, v⟩, hkv⟩ := splitEq_isSome f h
  simp only [fieldKey, fieldVal, hkv, Option.getD_some]

/-- A successful split is a split on the first 61: the buffer is the key,
one 61, then the value, and the key contains no 61. -/
theorem splitEq_structure (f k v : List Nat) (h : splitEq f = some (k, v)) :
    f = k ++ 61 :: v ∧ 61 ∉ k := by
  induction f generalizing k v with
  | nil => simp [splitEq] at h
  | cons b bs ih =>
    by_cases hb : b = 61
    · subst hb
      simp [splitEq] at h
      obtain ⟨hk, hv⟩ := h
      subst hk
      subst hv
      exact ⟨rfl, by simp⟩
    · simp only [splitEq, if_neg hb] at h
      rcases hsp : splitEq bs with _ | ⟨k0, v0⟩
      · rw [hsp] at h
        simp at h
      · rw [hsp] at h
        simp only [Option.some.injEq, Prod.mk.injEq] at h
        obtain ⟨hk, hv⟩ := h
        obtain ⟨hf, hnk⟩ := ih k0 v0 hsp
        subst hk
        subst hv
        constructor
        · simp [hf]
        · intro hmem
          rcases List.mem_cons.mp hmem with h1 | h1
          · exact hb h1.symm
          · exact hnk h1

/-- Membership in the keys after a BTreeMap insert. -/
theorem mem_keysRec_insertRec (m : JournalRecord) (k v a : List Nat) :
    a ∈ keysRec (insertRec m k v) ↔ a = k ∨ a ∈ keysRec m := by
  induction m with
  | nil => simp [insertRec, keysRec]
  | cons p m ih =>
    obtain ⟨k0, v0⟩ := p
    by_cases hp : k0 = k
    · simp only [insertRec]
      rw [if_pos hp]
      subst hp
      simp only [keysRec, List.map_cons, List.mem_cons]
      tauto
    · simp only [insertRec]
      rw [if_neg hp]
      simp only [keysRec, List.map_cons, List.mem_cons] at ih ⊢
      rw [ih]
      tauto

/-- Inserting a fresh key grows the record by exactly one entry. -/
theorem length_insertRec (m : JournalRecord) (k v : List Nat)
    (h : k ∉ keysRec m) : (insertRec m k v).length = m.length + 1 := by
  induction m with
  | nil => simp [insertRec]
  | cons p m ih =>
    obtain ⟨k0, v0⟩ := p
    simp only [keysRec, List.map_cons, List.mem_cons] at h
    push_neg at h
    obtain ⟨h1, h2⟩ := h
    have hne : ¬ k0 = k := fun he => h1 he.symm
    simp only [insertRec, if_neg hne, List.length_cons]
    rw [ih h2]

/-- Lookup of the inserted key. -/
theorem lookupRec_insertRec_self (m : JournalRecord) (k v : List Nat) :
    lookupRec (insertRec m k v) k = some v := by
  induction m with
  | nil => simp [insertRec, lookupRec]
  | cons p m ih =>
    obtain ⟨k0, v0⟩ := p
    by_cases hp : k0 = k
    · simp [insertRec, hp, lookupRec]
    · simp [insertRec, hp, lookupRec, ih]

/-- Lookup of a different key is unchanged by an insert. -/
theorem lookupRec_insertRec_ne (m : JournalRecord) (k v a : List Nat)
    (h : a ≠ k) : lookupRec (insertRec m k v) a = lookupRec m a := by
  have hka : ¬ k = a := fun he => h he.symm
  induction m with
  | nil => simp [insertRec, lookupRec, hka]
  | cons p m ih =>
    obtain ⟨k0, v0⟩ := p
    by_cases hp : k0 = k
    · subst hp
      simp [insertRec, lookupRec, hka]
    · by_cases hpa : k0 = a
      · subst hpa
        simp [insertRec, hp, lookupRec]
      · simp [insertRec, hp, lookupRec, hpa, ih]

/-- Invariant of the enumeration loop of next_record: buffers that all
contain 61 and have pairwise-distinct keys, fresh for the accumulator,
decode to an accumulator extended by exactly one entry per buffer, with
each key bound to its value and all other lookups unchanged. -/
theorem decodeFieldsAux_spec (fs : List (List Nat)) :
    ∀ m : JournalRecord,
      (∀ f ∈ fs, 61 ∈ f) →
      (fs.map fieldKey).Nodup →
      (∀ f ∈ fs, fieldKey f ∉ keysRec m) →
      ∃ m2, decodeFieldsAux m fs = some m2 ∧
        m2.length = m.length + fs.length ∧
        (∀ f ∈ fs, lookupRec m2 (fieldKey f) = some (fieldVal f)) ∧
        (∀ a, a ∉ fs.map fieldKey → lookupRec m2 a = lookupRec m a) := by
  induction fs with
  | nil =>
    intro m _ _ _
    exact ⟨m, rfl, by simp, by simp, fun a _ => rfl⟩
  | cons f fs ih =>
    intro m hmem hnodup hdisj
    have hf : 61 ∈ f := hmem f (by simp)
    have hsp := splitEq_eq_field f hf
    have hstep : decodeFieldsAux m (f :: fs) =
        decodeFieldsAux (insertRec m (fieldKey f) (fieldVal f)) fs := by
      simp [decodeFieldsAux, hsp]
    have hcons : fieldKey f ∉ fs.map fieldKey ∧ (fs.map fieldKey).Nodup := by
      rw [List.map_cons, List.nodup_cons] at hnodup
      exact hnodup
    have hnotin : fieldKey f ∉ fs.map fieldKey := hcons.1
    have hdisj2 : ∀ g ∈ fs,
        fieldKey g ∉ keysRec (insertRec m (fieldKey f) (fieldVal f)) := by
      intro g hg hmemk
      rcases (mem_keysRec_insertRec m (fieldKey f) (fieldVal f)
          (fieldKey g)).mp hmemk with he | hin
      · exact hnotin (he ▸ List.mem_map_of_mem fieldKey hg)
      · exact hdisj g (by simp [hg]) hin
    obtain ⟨m2, hdec, hlen, hlook, hpres⟩ :=
      ih (insertRec m (fieldKey f) (fieldVal f))
        (fun g hg => hmem g (by simp [hg])) hcons.2 hdisj2
    refine ⟨m2, by rw [hstep]; exact hdec, ?_, ?_, ?_⟩
    · rw [hlen, length_insertRec m _ _ (hdisj f (by simp))]
      simp only [List.length_cons]
      omega
    · intro g hg
      rcases List.mem_cons.mp hg with he | hin
      · subst he
        rw [hpres (fieldKey g) hnotin, lookupRec_insertRec_self]
      · exact hlook g hin
    · intro a ha
      have ha1 : a ≠ fieldKey f := fun he => ha (by simp [he])
      have ha2 : a ∉ fs.map fieldKey := fun h2 => ha (by simp [h2])
      rw [hpres a ha2, lookupRec_insertRec_ne m _ _ a ha1]

/-- C6 (amended): for a record of N field buffers, each containing exactly
one 61 ('=') and with pairwise-distinct names, next_record succeeds and
its decoded mapping has exactly N entries; every buffer is split on its
first '=' — the buffer is name, then '=', then value, with no '=' in the
name — and the mapping binds each name to the entire suffix after that
first '='; in particular MESSAGE=hello=world decodes to key MESSAGE with
value hello=world. -/
theorem next_record_split_first_eq :
    (∀ fs : List (List Nat),
      (∀ f ∈ fs, f.count 61 = 1) →
      (fs.map fieldKey).Nodup →
      next_record 1 fs 0 = RecRes.record (recMap fs) ∧
      (recMap fs).length = fs.length ∧
      (∀ f ∈ fs, f = fieldKey f ++ 61 :: fieldVal f ∧ 61 ∉ fieldKey f ∧
        lookupRec (recMap fs) (fieldKey f) = some (fieldVal f))) ∧
    next_record 1 [chars "MESSAGE=hello=world"] 0 =
      RecRes.record [(chars "MESSAGE", chars "hello=world")] := by
  constructor
  · intro fs hcount hnodup
    have hmem : ∀ f ∈ fs, 61 ∈ f := by
      intro f hf
      have hc := hcount f hf
      exact List.count_pos_iff.mp (by omega)
    obtain ⟨m2, hdec, hlen, hlook, _⟩ :=
      decodeFieldsAux_spec fs [] hmem hnodup (by simp [keysRec])
    have hrm : recMap fs = m2 := by simp [recMap, decodeFields, hdec]
    have hnr : next_record 1 fs 0 = RecRes.record m2 := by
      simp [next_record, sdTry, decodeFields, hdec]
    refine ⟨by rw [hrm]; exact hnr, by rw [hrm]; simpa using hlen, ?_⟩
    intro f hf
    obtain ⟨hstruct, hnk⟩ :=
      splitEq_structure f (fieldKey f) (fieldVal f) (splitEq_eq_field f (hmem f hf))
    exact ⟨hstruct, hnk, by rw [hrm]; exact hlook f hf⟩
  · decide

/-- C6 witness: two distinct-keyed buffers decode to a two-entry record. -/
theorem next_record_split_first_eq_witness :
    next_record 1 [chars "A=1", chars "B=2"] 0 =
      RecRes.record (recMap [chars "A=1", chars "B=2"]) ∧
    (recMap [chars "A=1", chars "B=2"]).length = 2 := by
  have h := next_record_split_first_eq.1 [chars "A=1", chars "B=2"]
    (by decide) (by decide)
  exact ⟨h.1, by simpa using h.2.1⟩

/-- C6 counterexample: two field buffers, each containing exactly one '=',
that share the name A decode to a single-entry mapping — the BTreeMap
insert overwrites the earlier binding — so the mapping does not have
exactly N equals 2 entries. -/
theorem duplicate_names_collapse :
    (chars "A=1").count 61 = 1 ∧ (chars "A=2").count 61 = 1 ∧
    next_record 1 [chars "A=1", chars "A=2"] 0 =
      RecRes.record [(chars "A", chars "2")] ∧
    ([(chars "A", chars "2")] : JournalRecord).length = 1 ∧
    [chars "A=1", chars "A=2"].length = 2 := by decide

/-- ASCII step of the lossy decoder. -/
theorem utf8LossyDecode_ascii (b : Nat) (r : List Nat) (h : b < 0x80) :
    utf8LossyDecode (b :: r) = b :: utf8LossyDecode r := by
  rcases r with _ | ⟨b1, _ | ⟨b2, _ | ⟨b3, r3⟩⟩⟩ <;> simp [utf8LossyDecode, h]

/-- Two-byte step of the lossy decoder. -/
theorem utf8LossyDecode_two (b0 b1 : Nat) (r : List Nat)
    (h0 : 0xC2 ≤ b0) (h0b : b0 ≤ 0xDF) (h1 : 0x80 ≤ b1) (h1b : b1 ≤ 0xBF) :
    utf8LossyDecode (b0 :: b1 :: r) =
      ((b0 - 0xC0) * 64 + (b1 - 0x80)) :: utf8LossyDecode r := by
  have hn : ¬ b0 < 0x80 := by omega
  rcases r with _ | ⟨b2, _ | ⟨b3, r3⟩⟩ <;>
    simp [utf8LossyDecode, headCont, hn, h0, h0b, h1, h1b]

/-- Three-byte step of the lossy decoder. -/
theorem utf8LossyDecode_three (b0 b1 b2 : Nat) (r : List Nat)
    (h0 : 0xE0 ≤ b0) (h0b : b0 ≤ 0xEF) (h1 : valid3Second b0 b1)
    (h2 : 0x80 ≤ b2) (h2b : b2 ≤ 0xBF) :
    utf8LossyDecode (b0 :: b1 :: b2 :: r) =
      ((b0 - 0xE0) * 4096 + (b1 - 0x80) * 64 + (b2 - 0x80)) ::
        utf8LossyDecode r := by
  have hn : ¬ b0 < 0x80 := by omega
  have hn2 : ¬ (0xC2 ≤ b0 ∧ b0 ≤ 0xDF) := by omega
  rcases r with _ | ⟨b3, r3⟩ <;>
    simp [utf8LossyDecode, headCont, head3, hn, hn2, h0, h0b, h1, h2, h2b]

/-- Four-byte step of the lossy decoder. -/
theorem utf8LossyDecode_four (b0 b1 b2 b3 : Nat) (r : List Nat)
    (h0 : 0xF0 ≤ b0) (h0b : b0 ≤ 0xF4) (h1 : valid4Second b0 b1)
    (h2 : 0x80 ≤ b2) (h2b : b2 ≤ 0xBF) (h3 : 0x80 ≤ b3) (h3b : b3 ≤ 0xBF) :
    utf8LossyDecode (b0 :: b1 :: b2 :: b3 :: r) =
      ((b0 - 0xF0) * 262144 + (b1 - 0x80) * 4096 + (b2 - 0x80) * 64 +
        (b3 - 0x80)) :: utf8LossyDecode r := by
  have hn : ¬ b0 < 0x80 := by omega
  have hn2 : ¬ (0xC2 ≤ b0 ∧ b0 ≤ 0xDF) := by omega
  have hn3 : ¬ (0xE0 ≤ b0 ∧ b0 ≤ 0xEF) := by omega
  simp [utf8LossyDecode, headCont, head4, hn, hn2, hn3, h0, h0b, h1, h2, h2b,
    h3, h3b]

/-- The lossy decoder recovers a valid scalar from its encoding, leaving
the remaining bytes to be decoded. -/
theorem utf8LossyDecode_encodeChar (c : Nat) (tl : List Nat) (h : ValidScalar c) :
    utf8LossyDecode (utf8EncodeChar c ++ tl) = c :: utf8LossyDecode tl := by
  by_cases hc1 : c < 0x80
  · rw [utf8EncodeChar, if_pos hc1]
    simpa using utf8LossyDecode_ascii c tl hc1
  · by_cases hc2 : c < 0x800
    · rw [utf8EncodeChar, if_neg hc1, if_pos hc2]
      have hrw := utf8LossyDecode_two (0xC0 + c / 64) (0x80 + c % 64) tl
        (by omega) (by omega) (by omega) (by omega)
      have harith : (0xC0 + c / 64 - 0xC0) * 64 + (0x80 + c % 64 - 0x80) = c := by
        omega
      simp only [List.cons_append, List.nil_append]
      rw [hrw, harith]
    · by_cases hc3 : c < 0x10000
      · rw [utf8EncodeChar, if_neg hc1, if_neg hc2, if_pos hc3]
        have hval : valid3Second (0xE0 + c / 4096) (0x80 + c / 64 % 64) := by
          rcases h with h | h
          · simp only [valid3Second]
            omega
          · simp only [valid3Second]
            omega
        have hrw := utf8LossyDecode_three (0xE0 + c / 4096) (0x80 + c / 64 % 64)
          (0x80 + c % 64) tl (by omega) (by omega) hval (by omega) (by omega)
        have harith : (0xE0 + c / 4096 - 0xE0) * 4096 +
            (0x80 + c / 64 % 64 - 0x80) * 64 + (0x80 + c % 64 - 0x80) = c := by
          omega
        simp only [List.cons_append, List.nil_append]
        rw [hrw, harith]
      · have hc4 : c < 0x110000 := by
          rcases h with h | h
          · omega
          · omega
        rw [utf8EncodeChar, if_neg hc1, if_neg hc2, if_neg hc3]
        have hval : valid4Second (0xF0 + c / 262144) (0x80 + c / 4096 % 64) := by
          simp only [valid4Second]
          omega
        have hrw := utf8LossyDecode_four (0xF0 + c / 262144) (0x80 + c / 4096 % 64)
          (0x80 + c / 64 % 64) (0x80 + c % 64) tl (by omega) (by omega) hval
          (by omega) (by omega) (by omega) (by omega)
        have harith : (0xF0 + c / 262144 - 0xF0) * 262144 +
            (0x80 + c / 4096 % 64 - 0x80) * 4096 +
            (0x80 + c / 64 % 64 - 0x80) * 64 + (0x80 + c % 64 - 0x80) = c := by
          omega
        simp only [List.cons_append, List.nil_append]
        rw [hrw, harith]

/-- Lossy decoding inverts UTF-8 encoding on texts of valid scalars. -/
theorem utf8LossyDecode_utf8Encode (cs : List Nat) (h : ∀ c ∈ cs, ValidScalar c) :
    utf8LossyDecode (utf8Encode cs) = cs := by
  induction cs with
  | nil => rfl
  | cons c cs ih =>
    have hstep : utf8Encode (c :: cs) = utf8EncodeChar c ++ utf8Encode cs := by
      simp [utf8Encode]
    rw [hstep, utf8LossyDecode_encodeChar c _ (h c (by simp)),
      ih (fun x hx => h x (by simp [hx]))]

/-- C2 (amended): every position-token byte sequence that is valid UTF-8 —
as the store-defined token format is — round-trips unmodified through the
text cursor() produces and the bytes seek() passes back to the store; a
token containing bytes that are not valid UTF-8 is altered by the lossy
decoding inside cursor() (see the counterexample). -/
theorem cursor_seek_roundtrip (bs s : List Nat)
    (hval : ∃ cs, (∀ c ∈ cs, ValidScalar c) ∧ utf8Encode cs = bs)
    (hcur : cursor 0 bs = Except.ok s) :
    seekBytesSent s = bs := by
  obtain ⟨cs, hv, henc⟩ := hval
  subst henc
  have hc0 : cursor 0 (utf8Encode cs) = Except.ok cs := by
    simp [cursor, sdTry, utf8LossyDecode_utf8Encode cs hv]
  rw [hc0] at hcur
  injection hcur with hs
  rw [← hs]
  rfl

/-- C2 witness: a concrete ASCII store token is forwarded back to the
store byte for byte. -/
theorem cursor_seek_roundtrip_witness :
    seekBytesSent (chars "s=ab;i=01") =
      [115, 61, 97, 98, 59, 105, 61, 48, 49] :=
  cursor_seek_roundtrip [115, 61, 97, 98, 59, 105, 61, 48, 49]
    (chars "s=ab;i=01") ⟨chars "s=ab;i=01", by decide, by decide⟩ rfl

/-- C2 counterexample: the store token consisting of the single byte 0xFF
does not round-trip — cursor() substitutes U+FFFD for it, and seek() then
passes the three UTF-8 bytes of U+FFFD back to the store instead of the
original byte. -/
theorem cursor_seek_roundtrip_counterexample :
    cursor 0 [0xFF] = Except.ok [0xFFFD] ∧
    seekBytesSent [0xFFFD] = [0xEF, 0xBF, 0xBD] ∧
    [0xEF, 0xBF, 0xBD] ≠ [0xFF] :=
  ⟨rfl, rfl, by decide⟩

/-- C10 witness: ten seconds become ten million microseconds and a
concrete successful open starts with 2 to the 63. -/
theorem set_iterator_timeout_conversion_witness :
    (set_iterator_timeout { j := true, wait_time := 0 } 10).wait_time =
      10 * 1000000 % 2 ^ 64 ∧
    Journal.wait_time { j := true, wait_time := 1 <<< 63 } = 2 ^ 63 :=
  ⟨(set_iterator_timeout_conversion { j := true, wait_time := 0 } 10).1,
   (set_iterator_timeout_conversion { j := true, wait_time := 0 } 0).2
     JournalFiles.All false true storeOk { j := true, wait_time := 1 <<< 63 }
     { storeOk with connected := true, atHead := true } rfl⟩

end Asystemd
